import Mathlib

/-!
Verification of the rmf_ros2 schedule coordinator sources.

The definitions below are a shallow embedding of the two C++ source files
(the schedule Writer transport and the ScheduleNode implementation).
Pure functions are translated to Lean functions; stateful handlers become
explicit state-passing functions that return the new state together with
the list of messages they publish.  64-bit unsigned counters are modelled
as Nat reduced modulo 2^64 where overflow matters.  External collaborators
(the ROS transport, the rmf_traffic database and negotiation library)
appear as explicit function-shaped parameters or as small models whose doc
comments say exactly what they stand for.
-/

/-! Version space -/

/-- Size of the 64-bit unsigned integer space used for all ids and versions. -/
def M64 : Nat := 2 ^ 64

/-- Modular comparison of 64-bit counters, as specified for rmf_utils::modular:
a is less than b when the difference a - b, interpreted as a signed 64-bit
value, is negative. -/
def modular_less (a b : Nat) : Bool :=
  decide (2 ^ 63 ≤ (a % M64 + M64 - b % M64) % M64)

/-! Conflict detection: get_conflicts.

Embeds the free function get_conflicts of the ScheduleNode source.  The
opaque geometric types (profiles and trajectories) are represented by Nat
tokens, and rmf_traffic::DetectConflict::between is the injected oracle
parameter named between. -/

/-- Responsiveness flag of a participant description. -/
inductive Rx
  | Responsive
  | Unresponsive
deriving DecidableEq

/-- Participant description: the profile is opaque geometry. -/
structure ParticipantDescription where
  profile : Nat
  responsiveness : Rx
deriving DecidableEq

/-- A route is a pair of a map name and an opaque trajectory. -/
structure Route where
  map : Nat
  trajectory : Nat
deriving DecidableEq

/-- One element of a Viewer::View: a changed route together with the
participant it belongs to and that participant's description. -/
structure ViewElement where
  participant : Nat
  description : ParticipantDescription
  route : Route
deriving DecidableEq

/-- The ItineraryViewer interface used by get_conflicts: participant ids,
their itineraries, and their (possibly missing) descriptions. -/
structure ItineraryViewer where
  participant_ids : List Nat
  itineraries : Nat → List Route
  get_participant : Nat → Option ParticipantDescription

/-- The is_unresponsive lambda from the source. -/
def is_unresponsive (desc : ParticipantDescription) : Bool :=
  desc.responsiveness == Rx.Unresponsive

/-- Shallow embedding of get_conflicts: iterate mirror participants, then
view changes, then the participant's routes, emitting a conflict pair
whenever the maps agree and the oracle reports a conflict.  The ConflictSet
pushed by the source as «\x7bparticipant, vc->participant\x7d» is modelled
as the ordered pair (participant, vc.participant). -/
def get_conflicts (between : Nat → Nat → Nat → Nat → Bool)
    (view_changes : List ViewElement) (viewer : ItineraryViewer) :
    List (Nat × Nat) :=
  viewer.participant_ids.flatMap fun participant =>
    match viewer.get_participant participant with
    | none => []
    | some description =>
      view_changes.flatMap fun vc =>
        if vc.participant = participant then []
        else if is_unresponsive description && is_unresponsive vc.description then []
        else (viewer.itineraries participant).filterMap fun route =>
          if route.map = vc.route.map ∧
             between vc.description.profile vc.route.trajectory
               description.profile route.trajectory = true
          then some (participant, vc.participant)
          else none

/-! Query registry: register_query, request_changes, cleanup_queries.

QueryInfo mirrors the source's QueryInfo struct, minus the ROS publisher
handle; the publisher's live subscription count, which is transport state,
is passed to cleanup_queries as a function of the query id. -/

/-- Queries are opaque filter descriptors; only equality matters here. -/
abbrev Query := Nat

/-- Registry entry for one registered query. -/
structure QueryInfo where
  query : Query
  last_sent_version : Option Nat
  last_registration_time : Nat
  remediation_requests : List (Option Nat)
deriving DecidableEq

/-- The registered_queries map, as an association list keyed by query id. -/
abbrev Registry := List (Nat × QueryInfo)

/-- Find the query info stored under an id. -/
def lookup_query (reg : Registry) (id : Nat) : Option QueryInfo :=
  (reg.find? fun e => e.1 == id).map fun e => e.2

/-- Replace the info stored under an id. -/
def update_query_info (reg : Registry) (id : Nat) (info : QueryInfo) : Registry :=
  reg.map fun e => if e.1 = id then (e.1, info) else e

/-- Whether an id is already a key of the registry. -/
def query_id_in_use (reg : Registry) (id : Nat) : Bool :=
  reg.any fun e => e.1 == id

/-- The QueryInfo created by the two-argument register_query overload:
query, no last sent version, registration time now, empty remediation set. -/
def fresh_query_info (q : Query) (now : Nat) : QueryInfo :=
  { query := q
    last_sent_version := none
    last_registration_time := now
    remediation_requests := [] }

/-- The two-argument register_query overload: store a new entry. -/
def register_query_store (reg : Registry) (id : Nat) (q : Query) (now : Nat) :
    Registry :=
  reg ++ [(id, fresh_query_info q now)]

/-- The deduplication loop of the register_query service handler: scan the
registry for an entry whose query equals the requested one; on the first
match, refresh its last registration time and report its id. -/
def dedup_search (now : Nat) : Registry → Query → Option (Nat × Registry)
  | [], _ => none
  | e :: rest, q =>
    if e.2.query = q then
      some (e.1, (e.1, { e.2 with last_registration_time := now }) :: rest)
    else
      (dedup_search now rest q).map fun r => (r.1, e :: r.2)

/-- The id-allocation loop of register_query: starting from the current
last_query_id, repeatedly increment (wrapping at 2^64) until an id not in
use is found, giving up after the fuel is exhausted. -/
def probe_query_id (used : Nat → Bool) : Nat → Nat → Option Nat
  | _, 0 => none
  | id, fuel + 1 =>
    if used ((id + 1) % M64) then probe_query_id used ((id + 1) % M64) fuel
    else some ((id + 1) % M64)

/-- The loop aborts when its attempt counter reaches the maximum uint64
value, so at most 2^64 - 2 probes can succeed. -/
def attempt_limit : Nat := M64 - 2

/-- Outcome field of the RegisterQuery response relevant to the claims. -/
inductive RegisterQueryResponse
  | ok (query_id : Nat)
  | err
deriving DecidableEq

/-- Result of the register_query service handler: the updated registry, the
updated last_query_id, and the response. -/
structure RegisterQueryOutcome where
  registry : Registry
  last_query_id : Nat
  response : RegisterQueryResponse
deriving DecidableEq

/-- Shallow embedding of the register_query service handler. -/
def register_query_handler (reg : Registry) (last_id now : Nat) (q : Query) :
    RegisterQueryOutcome :=
  match dedup_search now reg q with
  | some r => { registry := r.2, last_query_id := last_id, response := .ok r.1 }
  | none =>
    match probe_query_id (query_id_in_use reg) last_id attempt_limit with
    | some id =>
      { registry := register_query_store reg id q now
        last_query_id := id
        response := .ok id }
    | none => { registry := reg, last_query_id := last_id, response := .err }

/-- RequestChanges response codes. -/
inductive RequestChangesResult
  | unknown_query_id
  | request_accepted
deriving DecidableEq

/-- Insertion into the remediation set (a std::set in the source): adding an
element that is already present leaves the set unchanged. -/
def insert_request (x : Option Nat) (l : List (Option Nat)) :
    List (Option Nat) :=
  if x ∈ l then l else l ++ [x]

/-- Shallow embedding of the request_changes service handler. -/
def request_changes (reg : Registry) (qid version : Nat) (full_update : Bool) :
    Registry × RequestChangesResult :=
  match lookup_query reg qid with
  | none => (reg, .unknown_query_id)
  | some info =>
    let info' :=
      if full_update then
        { info with remediation_requests :=
            insert_request none info.remediation_requests }
      else
        match info.last_sent_version with
        | some lsv =>
          if modular_less version lsv then
            { info with remediation_requests :=
                insert_request (some version) info.remediation_requests }
          else info
        | none => info
    (update_query_info reg qid info', .request_accepted)

/-- Shallow embedding of cleanup_queries: erase every query whose publisher
has no subscribers and whose last registration time is more than the grace
period in the past.  subscriber_count reads the publisher's live
subscription count for a query id. -/
def cleanup_queries (reg : Registry) (subscriber_count : Nat → Nat)
    (now grace : Nat) : Registry :=
  reg.filter fun e =>
    !(subscriber_count e.1 == 0 &&
      decide (grace < now - e.2.last_registration_time))

/-! Mirror fan-out: update_query.

The rmf_traffic database is an external library here; update_query only
consumes its changes(query, since) and latest_version() results, so the
database appears as a view offering exactly those two observations. -/

/-- A patch as observed by update_query: its entry count, its optional cull
marker, and its (otherwise opaque) payload. -/
structure Patch where
  size : Nat
  cull : Bool
  content : Nat
deriving DecidableEq

/-- The database observations used by update_query. -/
structure MirrorDbView where
  latest_version : Nat
  changes : Query → Option Nat → Patch

/-- The MirrorUpdate message published to a query topic. -/
structure MirrorUpdateMsg where
  node_version : Nat
  database_version : Nat
  patch : Patch
  is_remedial_update : Bool
deriving DecidableEq

/-- Shallow embedding of ScheduleNode::update_query: compute the patch,
suppress empty non-remedial patches without a cull, otherwise publish one
MirrorUpdate message. -/
def update_query (db : MirrorDbView) (node_version : Nat) (q : Query)
    (last_sent_version : Option Nat) (is_remedial : Bool) :
    Option MirrorUpdateMsg :=
  let patch := db.changes q last_sent_version
  if is_remedial = false ∧ patch.size = 0 ∧ patch.cull = false then none
  else
    some { node_version := node_version
           database_version := db.latest_version
           patch := patch
           is_remedial_update := is_remedial }

/-! Writer transport: the synchronous register_participant RPC.

The 100 ms poll period is real time and is abstracted into discrete poll
rounds: each PollStep records whether the future became ready during that
round and whether the rclcpp context was still ok when it was checked. -/

/-- The Registration value returned to the caller. -/
structure Registration where
  participant_id : Nat
  last_itinerary_version : Nat
  last_route_id : Nat
deriving DecidableEq

/-- The RegisterParticipant RPC response message. -/
structure RegisterParticipantResponse where
  participant_id : Nat
  last_itinerary_version : Nat
  last_route_id : Nat
  error : String
deriving DecidableEq

/-- The convert overload for RegisterParticipant::Response. -/
def convert_registration (msg : RegisterParticipantResponse) : Registration :=
  { participant_id := msg.participant_id
    last_itinerary_version := msg.last_itinerary_version
    last_route_id := msg.last_route_id }

/-- The wait_for argument of the polling loop, in milliseconds. -/
def poll_interval_ms : Nat := 100

/-- One round of the polling loop. -/
structure PollStep where
  future_ready : Bool
  context_ok : Bool
deriving DecidableEq

/-- Possible outcomes of the blocking register_participant call.  The two
thrown std::runtime_error exceptions are distinguished; blocked means the
call is still waiting after all supplied poll rounds. -/
inductive RegisterParticipantOutcome
  | registered (r : Registration)
  | error_thrown
  | shutdown_thrown
  | blocked
deriving DecidableEq

/-- Shallow embedding of Writer::Implementation::Transport's
register_participant loop: wait for the future; if it is not ready and the
context has shut down, throw; once ready, throw when the response carries a
non-empty error string, otherwise convert the response. -/
def register_participant_loop (resp : RegisterParticipantResponse) :
    List PollStep → RegisterParticipantOutcome
  | [] => .blocked
  | p :: rest =>
    if p.future_ready then
      if resp.error = "" then .registered (convert_registration resp)
      else .error_thrown
    else if p.context_ok then register_participant_loop resp rest
    else .shutdown_thrown

/-- Whether the polling rounds ever deliver the response. -/
def reaches_response : List PollStep → Bool
  | [] => false
  | p :: rest => p.future_ready || (p.context_ok && reaches_response rest)

/-- Whether shutdown is observed while still waiting for the response. -/
def shutdown_while_waiting : List PollStep → Bool
  | [] => false
  | p :: rest => !p.future_ready && (!p.context_ok || shutdown_while_waiting rest)

/-! Schedule database and the itinerary edit handlers.

Modelled from the spec: the rmf_traffic::schedule::Database implementation
is not among the source files (only its caller, the ScheduleNode, is), so
its per-participant version bookkeeping is modelled from the spec's
ordering rules: a version at most the last applied one is ignored as a
duplicate, any later version is applied and becomes the latest, and the
inconsistency set is the set of maximal ranges of versions below the
latest that were never received.  The spec's modular comparison is taken
as the natural order, which agrees with it below wrap-around, and route
payloads are not tracked because they do not influence inconsistencies. -/

/-- Database entry for one participant: the latest applied itinerary
version and the set of versions received so far. -/
structure DbEntry where
  latest : Nat
  applied : List Nat
deriving DecidableEq

/-- The database: entries per participant id. -/
structure Database where
  entries : Nat → Option DbEntry

/-- Apply an edit version to an entry: ignore duplicates, otherwise record
the version and advance the latest. -/
def apply_edit (e : DbEntry) (v : Nat) : DbEntry :=
  if v ≤ e.latest then e
  else { latest := v, applied := v :: e.applied }

/-- Apply an edit to the database; edits for unknown participants fail and
change nothing. -/
def db_apply_version (db : Database) (p v : Nat) : Database :=
  match db.entries p with
  | none => db
  | some e =>
    { entries := fun u => if u = p then some (apply_edit e v) else db.entries u }

/-- The versions below the latest that were never received. -/
def missing_versions (e : DbEntry) : List Nat :=
  (List.range (e.latest + 1)).filter fun v => !(e.applied.contains v)

/-- Coalesce the tail of an ascending version list into maximal ranges,
given the current open range [lo, hi]. -/
def coalesce_from (lo hi : Nat) : List Nat → List (Nat × Nat)
  | [] => [(lo, hi)]
  | v :: rest =>
    if v = hi + 1 then coalesce_from lo v rest
    else (lo, hi) :: coalesce_from v v rest

/-- Coalesce an ascending version list into maximal contiguous ranges. -/
def coalesce : List Nat → List (Nat × Nat)
  | [] => []
  | v :: rest => coalesce_from v v rest

/-- The participant's inconsistency ranges as reported by the database. -/
def inconsistency_ranges (db : Database) (p : Nat) : List (Nat × Nat) :=
  match db.entries p with
  | none => []
  | some e => coalesce (missing_versions e)

/-- The ScheduleInconsistency message. -/
structure InconsistencyMsg where
  participant : Nat
  ranges : List (Nat × Nat)
  last_known_version : Nat
deriving DecidableEq

/-- Shallow embedding of ScheduleNode::publish_inconsistencies: look up the
participant's inconsistency ranges and publish them, except that an empty
range set is not published at all. -/
def publish_inconsistencies (db : Database) (p : Nat) : List InconsistencyMsg :=
  match db.entries p with
  | none => []
  | some e =>
    let ranges := coalesce (missing_versions e)
    if ranges = [] then []
    else [{ participant := p, ranges := ranges, last_known_version := e.latest }]

/-- The ItinerarySet message (its payload does not affect inconsistency
tracking and is therefore opaque). -/
structure ItinerarySetMsg where
  participant : Nat
  itinerary : Nat
  itinerary_version : Nat
deriving DecidableEq

/-- The ItineraryExtend message. -/
structure ItineraryExtendMsg where
  participant : Nat
  routes : Nat
  itinerary_version : Nat
deriving DecidableEq

/-- The ItineraryDelay message. -/
structure ItineraryDelayMsg where
  participant : Nat
  delay : Int
  itinerary_version : Nat
deriving DecidableEq

/-- The ItineraryErase message. -/
structure ItineraryEraseMsg where
  participant : Nat
  routes : List Nat
  itinerary_version : Nat
deriving DecidableEq

/-- The ItineraryClear message. -/
structure ItineraryClearMsg where
  participant : Nat
  itinerary_version : Nat
deriving DecidableEq

/-- Shallow embedding of ScheduleNode::itinerary_set: apply the edit to the
database, then run publish_inconsistencies for the participant. -/
def itinerary_set (db : Database) (msg : ItinerarySetMsg) :
    Database × List InconsistencyMsg :=
  let db' := db_apply_version db msg.participant msg.itinerary_version
  (db', publish_inconsistencies db' msg.participant)

/-- Shallow embedding of ScheduleNode::itinerary_extend. -/
def itinerary_extend (db : Database) (msg : ItineraryExtendMsg) :
    Database × List InconsistencyMsg :=
  let db' := db_apply_version db msg.participant msg.itinerary_version
  (db', publish_inconsistencies db' msg.participant)

/-- Shallow embedding of ScheduleNode::itinerary_delay. -/
def itinerary_delay (db : Database) (msg : ItineraryDelayMsg) :
    Database × List InconsistencyMsg :=
  let db' := db_apply_version db msg.participant msg.itinerary_version
  (db', publish_inconsistencies db' msg.participant)

/-- Shallow embedding of ScheduleNode::itinerary_erase. -/
def itinerary_erase (db : Database) (msg : ItineraryEraseMsg) :
    Database × List InconsistencyMsg :=
  let db' := db_apply_version db msg.participant msg.itinerary_version
  (db', publish_inconsistencies db' msg.participant)

/-- Shallow embedding of ScheduleNode::itinerary_clear. -/
def itinerary_clear (db : Database) (msg : ItineraryClearMsg) :
    Database × List InconsistencyMsg :=
  let db' := db_apply_version db msg.participant msg.itinerary_version
  (db', publish_inconsistencies db' msg.participant)

/-! Negotiation message handlers.

The receive_proposal, receive_rejection, receive_forfeit and
receive_refusal handlers are translated from the ScheduleNode source.  The
rmf_traffic::schedule::Negotiation internals (find, submit, reject,
forfeit, ready, complete, evaluate) and the NegotiationRoom cache replay
(check_cache) are external to the source files, so they appear as an
abstract operations record over an opaque negotiation state type N; every
theorem below holds for all instantiations of these operations. -/

/-- One (participant, proposal version) step of a negotiation table path. -/
structure Checkpoint where
  participant : Nat
  version : Nat
deriving DecidableEq

/-- The ConflictProposal message. -/
structure ProposalMsg where
  conflict_version : Nat
  for_participant : Nat
  to_accommodate : List Checkpoint
  itinerary : Nat
  proposal_version : Nat
deriving DecidableEq

/-- The ConflictRejection message (alternatives are opaque). -/
structure RejectionMsg where
  conflict_version : Nat
  table : List Checkpoint
  rejected_by : Nat
  alternatives : Nat
deriving DecidableEq

/-- The ConflictForfeit message. -/
structure ForfeitMsg where
  conflict_version : Nat
  table : List Checkpoint
deriving DecidableEq

/-- The ConflictRefusal message. -/
structure RefusalMsg where
  conflict_version : Nat
deriving DecidableEq

/-- The ConflictConclusion message. -/
structure ConclusionMsg where
  conflict_version : Nat
  resolved : Bool
  table : List Checkpoint
deriving DecidableEq

/-- Result of Negotiation::find on a table path: the message is a duplicate
already accommodated (deprecated), refers to a table that does not exist
yet (unknown), or names a live table (found). -/
inductive FindResult
  | deprecated
  | unknown
  | found
deriving DecidableEq

/-- One NegotiationRoom: the negotiation state plus the per-negotiation
caches of out-of-order messages. -/
structure RoomState (N : Type) where
  neg : N
  cached_proposals : List ProposalMsg
  cached_rejections : List RejectionMsg
  cached_forfeits : List ForfeitMsg

/-- The negotiation operations consumed by the handlers, injected as in the
source where they live in the external rmf_traffic library.  check_cache
replays cached messages into the negotiation and never publishes. -/
structure NegOps (N : Type) where
  find_proposal : N → Nat → List Checkpoint → FindResult
  find_table : N → List Checkpoint → FindResult
  submit : N → Nat → List Checkpoint → Nat → Nat → N
  reject : N → List Checkpoint → Nat → Nat → N
  forfeit_table : N → List Checkpoint → N
  check_cache : RoomState N → RoomState N
  ready : N → Bool
  complete : N → Bool
  evaluate : N → List Checkpoint

/-- Modelled from the spec: ScheduleNode::ConflictRecord is declared in
internal_Node.hpp, which is not among the source files.  Per the spec's
lifecycle rules, negotiations are created by the conflict detector under a
monotonically allocated negotiation version, and conclude/refuse retire
the negotiation from the active set (it then only awaits
acknowledgements), so negotiation lookups for a retired version find
nothing. -/
structure ConflictRecordState (N : Type) where
  negotiations : Nat → Option (RoomState N)
  next_version : Nat

/-- Store (or clear) the room held under a negotiation version. -/
def set_room {N : Type} (s : ConflictRecordState N) (v : Nat)
    (room : Option (RoomState N)) : ConflictRecordState N :=
  { s with negotiations := fun u => if u = v then room else s.negotiations u }

/-- ConflictRecord::conclude: retire the negotiation from the active set. -/
def conclude {N : Type} (s : ConflictRecordState N) (v : Nat) :
    ConflictRecordState N :=
  set_room s v none

/-- ConflictRecord::refuse: retire the negotiation from the active set. -/
def refuse {N : Type} (s : ConflictRecordState N) (v : Nat) :
    ConflictRecordState N :=
  set_room s v none

/-- ConflictRecord::insert for a conflict that opens a new negotiation:
allocate the next negotiation version for the new room. -/
def insert_conflict {N : Type} (s : ConflictRecordState N)
    (room : RoomState N) : ConflictRecordState N :=
  { negotiations := fun u =>
      if u = s.next_version then some room else s.negotiations u
    next_version := s.next_version + 1 }

/-- Shallow embedding of ScheduleNode::receive_proposal: drop the message
when the negotiation or the table is unknown to the record, drop
deprecated duplicates, otherwise submit, replay the cache, and publish a
conclusion when the negotiation became ready (resolved) or complete but
not ready (unresolved), retiring the negotiation either way. -/
def receive_proposal {N : Type} (ops : NegOps N) (s : ConflictRecordState N)
    (msg : ProposalMsg) : ConflictRecordState N × List ConclusionMsg :=
  match s.negotiations msg.conflict_version with
  | none => (s, [])
  | some room =>
    match ops.find_proposal room.neg msg.for_participant msg.to_accommodate with
    | .deprecated => (s, [])
    | .unknown =>
      (set_room s msg.conflict_version
        (some { room with cached_proposals := room.cached_proposals ++ [msg] }),
       [])
    | .found =>
      let neg1 := ops.submit room.neg msg.for_participant msg.to_accommodate
        msg.itinerary msg.proposal_version
      let room1 := ops.check_cache { room with neg := neg1 }
      if ops.ready room1.neg then
        (conclude (set_room s msg.conflict_version (some room1))
           msg.conflict_version,
         [{ conflict_version := msg.conflict_version
            resolved := true
            table := ops.evaluate room1.neg }])
      else if ops.complete room1.neg then
        (conclude (set_room s msg.conflict_version (some room1))
           msg.conflict_version,
         [{ conflict_version := msg.conflict_version
            resolved := false
            table := [] }])
      else
        (set_room s msg.conflict_version (some room1), [])

/-- Shallow embedding of ScheduleNode::receive_rejection: as above but a
rejection never publishes a conclusion. -/
def receive_rejection {N : Type} (ops : NegOps N) (s : ConflictRecordState N)
    (msg : RejectionMsg) : ConflictRecordState N × List ConclusionMsg :=
  match s.negotiations msg.conflict_version with
  | none => (s, [])
  | some room =>
    match ops.find_table room.neg msg.table with
    | .deprecated => (s, [])
    | .unknown =>
      (set_room s msg.conflict_version
        (some { room with cached_rejections := room.cached_rejections ++ [msg] }),
       [])
    | .found =>
      let neg1 := ops.reject room.neg msg.table msg.rejected_by msg.alternatives
      let room1 := ops.check_cache { room with neg := neg1 }
      (set_room s msg.conflict_version (some room1), [])

/-- Shallow embedding of ScheduleNode::receive_forfeit: forfeit the table,
replay the cache, and publish an unresolved conclusion when the
negotiation became complete, retiring it. -/
def receive_forfeit {N : Type} (ops : NegOps N) (s : ConflictRecordState N)
    (msg : ForfeitMsg) : ConflictRecordState N × List ConclusionMsg :=
  match s.negotiations msg.conflict_version with
  | none => (s, [])
  | some room =>
    match ops.find_table room.neg msg.table with
    | .deprecated => (s, [])
    | .unknown =>
      (set_room s msg.conflict_version
        (some { room with cached_forfeits := room.cached_forfeits ++ [msg] }),
       [])
    | .found =>
      let neg1 := ops.forfeit_table room.neg msg.table
      let room1 := ops.check_cache { room with neg := neg1 }
      if ops.complete room1.neg then
        (conclude (set_room s msg.conflict_version (some room1))
           msg.conflict_version,
         [{ conflict_version := msg.conflict_version
            resolved := false
            table := [] }])
      else
        (set_room s msg.conflict_version (some room1), [])

/-- Shallow embedding of ScheduleNode::receive_refusal: when the
negotiation is live, refuse it and publish an unresolved conclusion. -/
def receive_refusal {N : Type} (s : ConflictRecordState N)
    (msg : RefusalMsg) : ConflictRecordState N × List ConclusionMsg :=
  match s.negotiations msg.conflict_version with
  | none => (s, [])
  | some _ =>
    (refuse s msg.conflict_version,
     [{ conflict_version := msg.conflict_version
        resolved := false
        table := [] }])

/-- The events a negotiation record can process: creation of a negotiation
by the conflict detector, and the four message handlers. -/
inductive NegEvent (N : Type)
  | insert (room : RoomState N)
  | proposal (msg : ProposalMsg)
  | rejection (msg : RejectionMsg)
  | forfeit (msg : ForfeitMsg)
  | refusal (msg : RefusalMsg)

/-- Process one event. -/
def neg_step {N : Type} (ops : NegOps N) (s : ConflictRecordState N) :
    NegEvent N → ConflictRecordState N × List ConclusionMsg
  | .insert room => (insert_conflict s room, [])
  | .proposal m => receive_proposal ops s m
  | .rejection m => receive_rejection ops s m
  | .forfeit m => receive_forfeit ops s m
  | .refusal m => receive_refusal s m

/-- Process a sequence of events, accumulating every published conclusion. -/
def neg_run {N : Type} (ops : NegOps N) (s : ConflictRecordState N) :
    List (NegEvent N) → ConflictRecordState N × List ConclusionMsg
  | [] => (s, [])
  | e :: es =>
    let r := neg_step ops s e
    let r2 := neg_run ops r.1 es
    (r2.1, r.2 ++ r2.2)

/-- The conclusions published for one negotiation version. -/
def conclusions_for (v : Nat) (out : List ConclusionMsg) : List ConclusionMsg :=
  out.filter fun m => m.conflict_version == v

/-- The resolved conclusions published for one negotiation version. -/
def resolved_conclusions_for (v : Nat) (out : List ConclusionMsg) :
    List ConclusionMsg :=
  (conclusions_for v out).filter fun m => m.resolved

/-- The record state of a freshly started schedule node. -/
def initial_record (N : Type) : ConflictRecordState N :=
  { negotiations := fun _ => none, next_version := 0 }

/-- Invariant tying a record state to the conclusions published so far: at
most one conclusion per negotiation version, none yet for a live
negotiation, and versions at or above the allocation counter are untouched. -/
def RecordInv {N : Type} (s : ConflictRecordState N)
    (out : List ConclusionMsg) : Prop :=
  ∀ v, (conclusions_for v out).length ≤ 1 ∧
    ((s.negotiations v).isSome → (conclusions_for v out).length = 0) ∧
    (s.next_version ≤ v →
      s.negotiations v = none ∧ (conclusions_for v out).length = 0)

/-- A concrete negotiation operations record over the unit state whose
lookups report every message as deprecated, used to evaluate the handlers
on concrete inputs. -/
def deprecating_neg_ops : NegOps Unit :=
  { find_proposal := fun _ _ _ => .deprecated
    find_table := fun _ _ => .deprecated
    submit := fun n _ _ _ _ => n
    reject := fun n _ _ _ => n
    forfeit_table := fun n _ => n
    check_cache := fun r => r
    ready := fun _ => false
    complete := fun _ => false
    evaluate := fun _ => [] }

/-- An empty negotiation room over the unit state. -/
def unit_room : RoomState Unit :=
  { neg := ()
    cached_proposals := []
    cached_rejections := []
    cached_forfeits := [] }

/-- A concrete record holding the empty unit room under every version. -/
def unit_record : ConflictRecordState Unit :=
  { negotiations := fun _ => some unit_room, next_version := 0 }

/-!
Theorems.  Each claim of the specification review is settled by exactly one
theorem below; helper lemmas carry their own names.
-/

/-- Helper: looking up an id after update_query_info finds the new info. -/
theorem lookup_query_update (reg : Registry) (qid : Nat) (info x : QueryInfo)
    (h : lookup_query reg qid = some info) :
    lookup_query (update_query_info reg qid x) qid = some x := by
  induction reg with
  | nil => simp [lookup_query] at h
  | cons e rest ih =>
    by_cases hq : e.1 = qid
    · simp [lookup_query, update_query_info, List.find?, hq]
    · have hb : (e.1 == qid) = false := by simp [hq]
      simp only [lookup_query, update_query_info, List.map_cons, List.find?,
        if_neg hq, hb] at h ⊢
      exact ih h

/-- C7: cleanup_queries removes a registered query if and only if its
publisher has zero subscribers and the time elapsed since its last
registration exceeds the grace period; every other entry stays in the
registry unchanged. -/
theorem cleanup_queries_removal_iff (reg : Registry)
    (subscriber_count : Nat → Nat) (now grace : Nat) (e : Nat × QueryInfo) :
    e ∈ cleanup_queries reg subscriber_count now grace ↔
      e ∈ reg ∧
      ¬(subscriber_count e.1 = 0 ∧
        grace < now - e.2.last_registration_time) := by
  simp only [cleanup_queries, List.mem_filter, Bool.not_eq_true',
    Bool.and_eq_false_iff, beq_eq_false_iff_ne, ne_eq, decide_eq_false_iff_not,
    not_lt, not_and]
  tauto

/-- C6: update_query publishes nothing exactly when the update is not
remedial and the computed patch is empty with no cull; otherwise it
publishes one MirrorUpdate whose database_version is the database's latest
version, whose patch is the computed patch, and whose is_remedial_update
flag equals the is_remedial argument. -/
theorem update_query_publication (db : MirrorDbView) (nv : Nat) (q : Query)
    (lsv : Option Nat) (rem : Bool) :
    (update_query db nv q lsv rem = none ↔
      rem = false ∧ (db.changes q lsv).size = 0 ∧
        (db.changes q lsv).cull = false) ∧
    (∀ m, update_query db nv q lsv rem = some m →
      m.database_version = db.latest_version ∧
      m.patch = db.changes q lsv ∧
      m.is_remedial_update = rem) := by
  by_cases h : rem = false ∧ (db.changes q lsv).size = 0 ∧
      (db.changes q lsv).cull = false
  · constructor
    · simp [update_query, h]
    · intro m hm
      simp [update_query, h] at hm
  · constructor
    · simp [update_query, h]
    · intro m hm
      simp only [update_query, if_neg h, Option.some.injEq] at hm
      subst hm
      simp

/-- C6 witness: a remedial update on a concrete database view is published
with the database's version, the computed patch, and the remedial flag. -/
theorem update_query_publication_witness :
    ({ node_version := 4, database_version := 9
       patch := { size := 0, cull := false, content := 3 }
       is_remedial_update := true } : MirrorUpdateMsg).database_version =
      ({ latest_version := 9
         changes := fun _ _ =>
           { size := 0, cull := false, content := 3 } } : MirrorDbView).latest_version ∧
    ({ node_version := 4, database_version := 9
       patch := { size := 0, cull := false, content := 3 }
       is_remedial_update := true } : MirrorUpdateMsg).patch =
      ({ latest_version := 9
         changes := fun _ _ =>
           { size := 0, cull := false, content := 3 } } : MirrorDbView).changes 2 none ∧
    ({ node_version := 4, database_version := 9
       patch := { size := 0, cull := false, content := 3 }
       is_remedial_update := true } : MirrorUpdateMsg).is_remedial_update = true :=
  (update_query_publication
    { latest_version := 9
      changes := fun _ _ => { size := 0, cull := false, content := 3 } }
    4 2 none true).2 _ rfl

/-- Helper: the loop returns a Registration exactly when a poll round
delivers the response and its error string is empty. -/
theorem register_participant_loop_registered
    (resp : RegisterParticipantResponse) (polls : List PollStep)
    (r : Registration) :
    register_participant_loop resp polls = .registered r ↔
      (reaches_response polls = true ∧ resp.error = "" ∧
        r = convert_registration resp) := by
  induction polls with
  | nil => simp [register_participant_loop, reaches_response]
  | cons p rest ih =>
    by_cases h1 : p.future_ready
    · by_cases h2 : resp.error = "" <;>
        simp [register_participant_loop, reaches_response, h1, h2, eq_comm]
    · by_cases h3 : p.context_ok <;>
        simp [register_participant_loop, reaches_response, h1, h3, ih]

/-- Helper: the loop throws the registration error exactly when a poll
round delivers the response and its error string is non-empty. -/
theorem register_participant_loop_error
    (resp : RegisterParticipantResponse) (polls : List PollStep) :
    register_participant_loop resp polls = .error_thrown ↔
      (reaches_response polls = true ∧ resp.error ≠ "") := by
  induction polls with
  | nil => simp [register_participant_loop, reaches_response]
  | cons p rest ih =>
    by_cases h1 : p.future_ready
    · by_cases h2 : resp.error = "" <;>
        simp [register_participant_loop, reaches_response, h1, h2]
    · by_cases h3 : p.context_ok <;>
        simp [register_participant_loop, reaches_response, h1, h3, ih]

/-- Helper: the loop throws the shutdown error exactly when shutdown is
observed while still waiting. -/
theorem register_participant_loop_shutdown
    (resp : RegisterParticipantResponse) (polls : List PollStep) :
    register_participant_loop resp polls = .shutdown_thrown ↔
      shutdown_while_waiting polls = true := by
  induction polls with
  | nil => simp [register_participant_loop, shutdown_while_waiting]
  | cons p rest ih =>
    by_cases h1 : p.future_ready
    · by_cases h2 : resp.error = "" <;>
        simp [register_participant_loop, shutdown_while_waiting, h1, h2]
    · by_cases h3 : p.context_ok <;>
        simp [register_participant_loop, shutdown_while_waiting, h1, h3, ih]

/-- C9: the Writer transport's register_participant polls in 100 ms rounds
until the RPC response arrives or shutdown is signalled; it returns the
Registration converted from the response exactly when the response arrives
with an empty error string, throws the registration error exactly when the
response arrives with a non-empty error string, and throws the shutdown
error exactly when shutdown occurs while waiting. -/
theorem register_participant_blocking_outcome
    (resp : RegisterParticipantResponse) (polls : List PollStep) :
    poll_interval_ms = 100 ∧
    (∀ r, register_participant_loop resp polls = .registered r ↔
      (reaches_response polls = true ∧ resp.error = "" ∧
        r = convert_registration resp)) ∧
    (register_participant_loop resp polls = .error_thrown ↔
      (reaches_response polls = true ∧ resp.error ≠ "")) ∧
    (register_participant_loop resp polls = .shutdown_thrown ↔
      shutdown_while_waiting polls = true) :=
  ⟨rfl,
   fun r => register_participant_loop_registered resp polls r,
   register_participant_loop_error resp polls,
   register_participant_loop_shutdown resp polls⟩

/-- C5: request_changes answers UNKNOWN_QUERY_ID exactly when the query id
is not registered and REQUEST_ACCEPTED otherwise; on acceptance with
full_update the full-snapshot marker is inserted into the remediation set,
and without full_update the requested version is inserted exactly when it
is modularly below the query's last sent version. -/
theorem request_changes_response_and_insertion (reg : Registry)
    (qid version : Nat) (full_update : Bool) :
    ((request_changes reg qid version full_update).2 = .unknown_query_id ↔
      lookup_query reg qid = none) ∧
    (∀ info, lookup_query reg qid = some info →
      (request_changes reg qid version full_update).2 = .request_accepted ∧
      (full_update = true →
        lookup_query (request_changes reg qid version full_update).1 qid =
          some { info with remediation_requests := insert_request none info.remediation_requests }) ∧
      (full_update = false →
        ((∃ lsv, info.last_sent_version = some lsv ∧
            modular_less version lsv = true) →
          lookup_query (request_changes reg qid version full_update).1 qid =
            some { info with remediation_requests := insert_request (some version) info.remediation_requests }) ∧
        ((∀ lsv, info.last_sent_version = some lsv →
            modular_less version lsv = false) →
          lookup_query (request_changes reg qid version full_update).1 qid =
            some info))) := by
  constructor
  · cases h : lookup_query reg qid with
    | none => simp [request_changes, h]
    | some info => simp [request_changes, h]
  · intro info h
    refine ⟨by simp [request_changes, h], ?_, ?_⟩
    · intro hf
      subst hf
      simp only [request_changes, h]
      exact lookup_query_update reg qid info _ h
    · intro hf
      subst hf
      constructor
      · rintro ⟨lsv, hlsv, hless⟩
        simp only [request_changes, h, hlsv, hless, Bool.false_eq_true,
          if_false, if_true]
        exact lookup_query_update reg qid info _ h
      · intro hnone
        cases hlsv : info.last_sent_version with
        | none =>
          simp only [request_changes, h, hlsv, Bool.false_eq_true, if_false]
          have := lookup_query_update reg qid info info h
          simpa using this
        | some lsv =>
          have hless := hnone lsv hlsv
          simp only [request_changes, h, hlsv, hless, Bool.false_eq_true,
            if_false]
          have := lookup_query_update reg qid info info h
          simpa using this

/-- C5 witness: on a registry holding query id 7 with last sent version 5,
a catch-up request for version 1 is accepted and version 1 is inserted
into the remediation set. -/
theorem request_changes_insertion_witness :
    (request_changes [(7, { query := 9, last_sent_version := some 5
                            last_registration_time := 0
                            remediation_requests := [] })] 7 1 false).2 =
      .request_accepted ∧
    lookup_query
      (request_changes [(7, { query := 9, last_sent_version := some 5
                              last_registration_time := 0
                              remediation_requests := [] })] 7 1 false).1 7 =
      some { query := 9, last_sent_version := some 5
             last_registration_time := 0
             remediation_requests := [some 1] } := by
  have h := (request_changes_response_and_insertion
    [(7, { query := 9, last_sent_version := some 5
           last_registration_time := 0
           remediation_requests := [] })] 7 1 false).2
    { query := 9, last_sent_version := some 5
      last_registration_time := 0
      remediation_requests := [] } rfl
  refine ⟨h.1, ?_⟩
  have h2 := (h.2.2 rfl).1 ⟨5, rfl, by decide⟩
  simpa [insert_request] using h2

/-- C10: when a registered query has never been sent any update, a
catch-up request without full_update inserts nothing into the remediation
set, yet the response is still REQUEST_ACCEPTED. -/
theorem request_changes_without_last_sent (reg : Registry)
    (qid version : Nat) (info : QueryInfo)
    (h1 : lookup_query reg qid = some info)
    (h2 : info.last_sent_version = none) :
    (request_changes reg qid version false).2 = .request_accepted ∧
    lookup_query (request_changes reg qid version false).1 qid = some info := by
  refine ⟨by simp [request_changes, h1], ?_⟩
  simp only [request_changes, h1, h2, Bool.false_eq_true, if_false]
  have := lookup_query_update reg qid info info h1
  simpa using this

/-- C10 witness: a freshly registered query (no update ever sent) accepts a
catch-up request and its stored info, remediation set included, does not
change. -/
theorem request_changes_without_last_sent_witness :
    (request_changes [(3, fresh_query_info 9 0)] 3 5 false).2 =
      .request_accepted ∧
    lookup_query (request_changes [(3, fresh_query_info 9 0)] 3 5 false).1 3 =
      some (fresh_query_info 9 0) :=
  request_changes_without_last_sent [(3, fresh_query_info 9 0)] 3 5
    (fresh_query_info 9 0) rfl rfl

/-- Helper: what a successful deduplication scan means — the registry
splits around the first entry holding the requested query, and only that
entry's registration time is refreshed — and a failed scan means no entry
holds the query. -/
theorem dedup_search_spec (now : Nat) (reg : Registry) (q : Query) :
    (∀ id reg', dedup_search now reg q = some (id, reg') →
      ∃ pre e post, reg = pre ++ e :: post ∧
        (∀ e' ∈ pre, e'.2.query ≠ q) ∧
        e.2.query = q ∧ id = e.1 ∧
        reg' = pre ++ (e.1, { e.2 with last_registration_time := now }) :: post) ∧
    (dedup_search now reg q = none → ∀ e ∈ reg, e.2.query ≠ q) := by
  induction reg with
  | nil =>
    constructor
    · intro id reg' h
      simp [dedup_search] at h
    · intro _ e he
      simp at he
  | cons a rest ih =>
    constructor
    · intro id reg' h
      by_cases ha : a.2.query = q
      · rw [dedup_search, if_pos ha] at h
        cases h
        exact ⟨[], a, rest, by simp, by simp, ha, rfl, by simp⟩
      · rw [dedup_search, if_neg ha] at h
        cases hr : dedup_search now rest q with
        | none => rw [hr] at h; simp at h
        | some r =>
          rw [hr] at h
          have h2 : r.1 = id ∧ a :: r.2 = reg' := by
            simpa [Prod.ext_iff] using h
          obtain ⟨pre, e, post, hsplit, hpre, he, hid, hreg⟩ :=
            ih.1 r.1 r.2 (by rw [hr])
          refine ⟨a :: pre, e, post, by simp [hsplit], ?_, he, ?_, ?_⟩
          · intro e' he'
            rcases List.mem_cons.mp he' with h1 | h1
            · subst h1; exact ha
            · exact hpre e' h1
          · rw [← h2.1]; exact hid
          · rw [← h2.2, hreg]; simp
    · intro h e he
      by_cases ha : a.2.query = q
      · rw [dedup_search, if_pos ha] at h
        simp at h
      · rw [dedup_search, if_neg ha] at h
        rcases List.mem_cons.mp he with h1 | h1
        · subst h1; exact ha
        · cases hr : dedup_search now rest q with
          | none => exact ih.2 hr e h1
          | some r => rw [hr] at h; simp at h

/-- Helper: unfolding equation of the allocation probe. -/
theorem probe_query_id_succ (used : Nat → Bool) (id fuel : Nat) :
    probe_query_id used id (fuel + 1) =
      if used ((id + 1) % M64) then probe_query_id used ((id + 1) % M64) fuel
      else some ((id + 1) % M64) := rfl

/-- Helper: a successful probe returns the first id, in the modularly
wrapping sequence start+1, start+2, ..., that is not in use; every id
probed before it was in use. -/
theorem probe_query_id_spec (used : Nat → Bool) :
    ∀ (fuel start id : Nat), probe_query_id used start fuel = some id →
      used id = false ∧
      ∃ k, k < fuel ∧ id = (start + 1 + k) % M64 ∧
        ∀ j, j < k → used ((start + 1 + j) % M64) = true := by
  intro fuel
  induction fuel with
  | zero => intro start id h; simp [probe_query_id] at h
  | succ fuel ih =>
    intro start id h
    rw [probe_query_id_succ] at h
    by_cases hu : used ((start + 1) % M64)
    · rw [if_pos hu] at h
      obtain ⟨hid, k, hk, hkeq, hprev⟩ := ih ((start + 1) % M64) id h
      refine ⟨hid, k + 1, by omega, ?_, ?_⟩
      · rw [hkeq, Nat.add_assoc, Nat.mod_add_mod]
        congr 1
        omega
      · intro j hj
        cases j with
        | zero => simpa using hu
        | succ j =>
          have := hprev j (by omega)
          rw [Nat.add_assoc, Nat.mod_add_mod] at this
          rw [show start + 1 + (1 + j) = start + 1 + (j + 1) by omega] at this
          exact this
    · rw [if_neg hu] at h
      cases h
      refine ⟨by simpa using hu, 0, by omega, by simp, by omega⟩

/-- C3: register_query deduplicates — when an entry with the same query
exists, the response carries that entry's id, only its last registration
time is refreshed, and last_query_id is untouched; otherwise the handler
responds with the id found by probing modularly upward from
last_query_id + 1 past the ids in use, stores a fresh entry under it, and
sets last_query_id to it. -/
theorem register_query_dedup_and_allocation (reg : Registry)
    (last_id now : Nat) (q : Query) :
    (∀ id reg', dedup_search now reg q = some (id, reg') →
      register_query_handler reg last_id now q =
        { registry := reg', last_query_id := last_id, response := .ok id } ∧
      ∃ pre e post, reg = pre ++ e :: post ∧
        (∀ e' ∈ pre, e'.2.query ≠ q) ∧
        e.2.query = q ∧ id = e.1 ∧
        reg' = pre ++ (e.1, { e.2 with last_registration_time := now }) :: post) ∧
    (dedup_search now reg q = none →
      (∀ e ∈ reg, e.2.query ≠ q) ∧
      ∀ id, probe_query_id (query_id_in_use reg) last_id attempt_limit = some id →
        register_query_handler reg last_id now q =
          { registry := reg ++ [(id, fresh_query_info q now)]
            last_query_id := id
            response := .ok id } ∧
        query_id_in_use reg id = false ∧
        ∃ k, id = (last_id + 1 + k) % M64 ∧
          ∀ j, j < k → query_id_in_use reg ((last_id + 1 + j) % M64) = true) := by
  constructor
  · intro id reg' h
    refine ⟨?_, (dedup_search_spec now reg q).1 id reg' h⟩
    simp [register_query_handler, h, register_query_store]
  · intro h
    refine ⟨(dedup_search_spec now reg q).2 h, ?_⟩
    intro id hp
    obtain ⟨hfree, k, _, hkeq, hprev⟩ :=
      probe_query_id_spec (query_id_in_use reg) attempt_limit last_id id hp
    refine ⟨?_, hfree, k, hkeq, hprev⟩
    simp [register_query_handler, h, hp, register_query_store]

/-- C3 witness: with one registered query (id 0, query 1) and last_query_id
0, registering the distinct query 2 allocates the fresh id 1 (the first
probe candidate, which is free), appends a fresh entry under id 1 and sets
last_query_id to 1. -/
theorem register_query_allocation_witness :
    register_query_handler [(0, fresh_query_info 1 0)] 0 5 2 =
      { registry := [(0, fresh_query_info 1 0), (1, fresh_query_info 2 5)]
        last_query_id := 1
        response := .ok 1 } ∧
    query_id_in_use [(0, fresh_query_info 1 0)] 1 = false := by
  have hprobe : probe_query_id (query_id_in_use [(0, fresh_query_info 1 0)]) 0
      attempt_limit = some 1 := by
    rw [show attempt_limit = (M64 - 3) + 1 from rfl, probe_query_id_succ]
    norm_num [query_id_in_use, fresh_query_info, M64]
  have h := ((register_query_dedup_and_allocation
    [(0, fresh_query_info 1 0)] 0 5 2).2 (by decide)).2 1 hprobe
  exact ⟨h.1, h.2.1⟩

/-- C1: get_conflicts emits the pair (p, q) exactly when p is a mirror
participant with a known description, some view change c belongs to a
different participant q, p and q are not both unresponsive, and some route
of p's itinerary shares c's map and is reported conflicting with c's route
by the oracle; in particular no pair is ever emitted for two unresponsive
participants. -/
theorem get_conflicts_characterization (between : Nat → Nat → Nat → Nat → Bool)
    (view_changes : List ViewElement) (viewer : ItineraryViewer) (p q : Nat) :
    (p, q) ∈ get_conflicts between view_changes viewer ↔
      p ∈ viewer.participant_ids ∧
      ∃ d, viewer.get_participant p = some d ∧
      ∃ c ∈ view_changes, c.participant = q ∧ q ≠ p ∧
        ¬(is_unresponsive d = true ∧ is_unresponsive c.description = true) ∧
        ∃ route ∈ viewer.itineraries p, route.map = c.route.map ∧
          between c.description.profile c.route.trajectory d.profile
            route.trajectory = true := by
  unfold get_conflicts
  rw [List.mem_flatMap]
  constructor
  · rintro ⟨p', hp', hmem⟩
    cases hd : viewer.get_participant p' with
    | none => rw [hd] at hmem; simp at hmem
    | some d =>
      rw [hd] at hmem
      rw [List.mem_flatMap] at hmem
      obtain ⟨c, hc, hmem2⟩ := hmem
      by_cases h1 : c.participant = p'
      · rw [if_pos h1] at hmem2; simp at hmem2
      · rw [if_neg h1] at hmem2
        by_cases h2 : (is_unresponsive d && is_unresponsive c.description) = true
        · rw [if_pos h2] at hmem2; simp at hmem2
        · rw [if_neg h2] at hmem2
          rw [List.mem_filterMap] at hmem2
          obtain ⟨route, hroute, heq⟩ := hmem2
          by_cases h3 : route.map = c.route.map ∧
              between c.description.profile c.route.trajectory d.profile
                route.trajectory = true
          · rw [if_pos h3] at heq
            obtain ⟨hpp, hcq⟩ : p' = p ∧ c.participant = q := by
              simpa [Prod.ext_iff] using heq
            subst hpp
            refine ⟨hp', d, hd, c, hc, hcq, ?_, ?_, route, hroute, h3⟩
            · rw [hcq] at h1; exact fun he => h1 he
            · intro hboth
              exact h2 (by simp [hboth.1, hboth.2])
          · rw [if_neg h3] at heq; simp at heq
  · rintro ⟨hp, d, hd, c, hc, hcq, hqp, hnu, route, hroute, hmap, hb⟩
    refine ⟨p, hp, ?_⟩
    rw [hd, List.mem_flatMap]
    refine ⟨c, hc, ?_⟩
    rw [if_neg (by rw [hcq]; exact hqp)]
    rw [if_neg (by simpa using fun ha hb => hnu ⟨ha, hb⟩)]
    rw [List.mem_filterMap]
    exact ⟨route, hroute, by rw [if_pos ⟨hmap, hb⟩, hcq]⟩

/-- C4 counterexample: participant 7 is fully consistent (latest version 0,
version 0 applied); applying the in-order itinerary_set edit at version 1
leaves its inconsistency set empty, and the node publishes nothing on the
inconsistency topic, contradicting the claim that the current inconsistency
set is published after every edit. -/
theorem itinerary_set_without_publication :
    (itinerary_set
      { entries := fun u =>
          if u = 7 then some { latest := 0, applied := [0] } else none }
      { participant := 7, itinerary := 0, itinerary_version := 1 }).2 = [] := by
  rfl

/-- Helper: publish_inconsistencies publishes exactly when the participant's
inconsistency set is non-empty, and what it publishes is that set. -/
theorem publish_inconsistencies_spec (db : Database) (p : Nat) :
    (publish_inconsistencies db p = [] ↔ inconsistency_ranges db p = []) ∧
    ∀ m ∈ publish_inconsistencies db p,
      m.participant = p ∧ m.ranges = inconsistency_ranges db p := by
  unfold publish_inconsistencies inconsistency_ranges
  cases db.entries p with
  | none => simp
  | some e =>
    by_cases h : coalesce (missing_versions e) = []
    · simp [h]
    · simp [h]

/-- C4 (amended): after every itinerary edit message, the node publishes
the participant's current inconsistency set if and only if that set is
non-empty; what is published is exactly the participant's inconsistency
set in the post-edit database. -/
theorem itinerary_edit_publishes_iff_inconsistent (db : Database)
    (m1 : ItinerarySetMsg) (m2 : ItineraryExtendMsg) (m3 : ItineraryDelayMsg)
    (m4 : ItineraryEraseMsg) (m5 : ItineraryClearMsg) :
    (((itinerary_set db m1).2 = [] ↔
        inconsistency_ranges (itinerary_set db m1).1 m1.participant = []) ∧
      ∀ m ∈ (itinerary_set db m1).2, m.participant = m1.participant ∧
        m.ranges = inconsistency_ranges (itinerary_set db m1).1 m1.participant) ∧
    (((itinerary_extend db m2).2 = [] ↔
        inconsistency_ranges (itinerary_extend db m2).1 m2.participant = []) ∧
      ∀ m ∈ (itinerary_extend db m2).2, m.participant = m2.participant ∧
        m.ranges = inconsistency_ranges (itinerary_extend db m2).1 m2.participant) ∧
    (((itinerary_delay db m3).2 = [] ↔
        inconsistency_ranges (itinerary_delay db m3).1 m3.participant = []) ∧
      ∀ m ∈ (itinerary_delay db m3).2, m.participant = m3.participant ∧
        m.ranges = inconsistency_ranges (itinerary_delay db m3).1 m3.participant) ∧
    (((itinerary_erase db m4).2 = [] ↔
        inconsistency_ranges (itinerary_erase db m4).1 m4.participant = []) ∧
      ∀ m ∈ (itinerary_erase db m4).2, m.participant = m4.participant ∧
        m.ranges = inconsistency_ranges (itinerary_erase db m4).1 m4.participant) ∧
    (((itinerary_clear db m5).2 = [] ↔
        inconsistency_ranges (itinerary_clear db m5).1 m5.participant = []) ∧
      ∀ m ∈ (itinerary_clear db m5).2, m.participant = m5.participant ∧
        m.ranges = inconsistency_ranges (itinerary_clear db m5).1 m5.participant) :=
  ⟨publish_inconsistencies_spec _ m1.participant,
   publish_inconsistencies_spec _ m2.participant,
   publish_inconsistencies_spec _ m3.participant,
   publish_inconsistencies_spec _ m4.participant,
   publish_inconsistencies_spec _ m5.participant⟩

/-- C4 witness: participant 7 registered at version 0 receives an edit at
version 2; the gap [1,1] is published, and the published message carries
exactly the post-edit inconsistency set. -/
theorem itinerary_edit_publishes_witness :
    (itinerary_set
      { entries := fun u =>
          if u = 7 then some { latest := 0, applied := [0] } else none }
      { participant := 7, itinerary := 0, itinerary_version := 2 }).2 ≠ [] ∧
    ({ participant := 7, ranges := [(1, 1)], last_known_version := 2 } :
        InconsistencyMsg).participant = 7 ∧
    ({ participant := 7, ranges := [(1, 1)], last_known_version := 2 } :
        InconsistencyMsg).ranges =
      inconsistency_ranges
        (itinerary_set
          { entries := fun u =>
              if u = 7 then some { latest := 0, applied := [0] } else none }
          { participant := 7, itinerary := 0, itinerary_version := 2 }).1 7 := by
  have h := (itinerary_edit_publishes_iff_inconsistent
    { entries := fun u =>
        if u = 7 then some { latest := 0, applied := [0] } else none }
    { participant := 7, itinerary := 0, itinerary_version := 2 }
    { participant := 0, routes := 0, itinerary_version := 0 }
    { participant := 0, delay := 0, itinerary_version := 0 }
    { participant := 0, routes := [], itinerary_version := 0 }
    { participant := 0, itinerary_version := 0 }).1
  refine ⟨?_, ?_⟩
  · intro hempty
    have := h.1.mp hempty
    revert this
    decide
  · exact h.2 _ (by decide)

/-- Helper: the room slot written by set_room. -/
theorem set_room_negotiations {N : Type} (s : ConflictRecordState N)
    (v : Nat) (room : Option (RoomState N)) (u : Nat) :
    (set_room s v room).negotiations u =
      if u = v then room else s.negotiations u := rfl

/-- Helper: appending one conclusion extends the per-version tally by one
exactly for that conclusion's version. -/
theorem conclusions_for_append_single (v : Nat) (out : List ConclusionMsg)
    (m : ConclusionMsg) :
    (conclusions_for v (out ++ [m])).length =
      (conclusions_for v out).length +
        (if m.conflict_version = v then 1 else 0) := by
  by_cases hm : m.conflict_version = v
  · simp [conclusions_for, List.filter_append, hm]
  · simp [conclusions_for, List.filter_append, hm]

/-- Helper: creating a negotiation under a fresh version preserves the
record invariant. -/
theorem record_inv_insert {N : Type} (s : ConflictRecordState N)
    (out : List ConclusionMsg) (room : RoomState N) (h : RecordInv s out) :
    RecordInv (insert_conflict s room) out := by
  intro v
  obtain ⟨h1, h2, h3⟩ := h v
  refine ⟨h1, ?_, ?_⟩
  · intro hsome
    by_cases hv : v = s.next_version
    · exact (h3 (le_of_eq hv.symm)).2
    · simp only [insert_conflict, if_neg hv] at hsome
      exact h2 hsome
  · intro hnext
    simp only [insert_conflict] at hnext
    have hgt : s.next_version ≤ v := by omega
    have hne : v ≠ s.next_version := by omega
    obtain ⟨hnone, hcnt⟩ := h3 hgt
    exact ⟨by simp only [insert_conflict, if_neg hne]; exact hnone, hcnt⟩

/-- Helper: replacing the room of a live negotiation preserves the record
invariant without publications. -/
theorem record_inv_set_live {N : Type} (s : ConflictRecordState N)
    (out : List ConclusionMsg) (v0 : Nat) (room0 room1 : RoomState N)
    (hv : s.negotiations v0 = some room0) (h : RecordInv s out) :
    RecordInv (set_room s v0 (some room1)) out := by
  intro v
  obtain ⟨h1, h2, h3⟩ := h v
  refine ⟨h1, ?_, ?_⟩
  · intro hsome
    by_cases hvv : v = v0
    · subst hvv
      exact h2 (by rw [hv]; rfl)
    · rw [set_room_negotiations, if_neg hvv] at hsome
      exact h2 hsome
  · intro hnext
    obtain ⟨hnone, hcnt⟩ := h3 hnext
    refine ⟨?_, hcnt⟩
    by_cases hvv : v = v0
    · subst hvv
      rw [hv] at hnone
      cases hnone
    · rw [set_room_negotiations, if_neg hvv]
      exact hnone

/-- Helper: retiring a live negotiation while publishing one conclusion for
its version preserves the record invariant. -/
theorem record_inv_retire_publish {N : Type} (s : ConflictRecordState N)
    (out : List ConclusionMsg) (v0 : Nat) (room0 : RoomState N)
    (m : ConclusionMsg) (hv : s.negotiations v0 = some room0)
    (hm : m.conflict_version = v0) (h : RecordInv s out) :
    RecordInv (set_room s v0 none) (out ++ [m]) := by
  intro v
  obtain ⟨h1, h2, h3⟩ := h v
  have hlen := conclusions_for_append_single v out m
  by_cases hvv : v = v0
  · subst hvv
    have hc0 := h2 (by rw [hv]; rfl)
    refine ⟨?_, ?_, ?_⟩
    · rw [hlen, hc0, if_pos hm]
    · intro hsome
      rw [set_room_negotiations, if_pos rfl] at hsome
      simp at hsome
    · intro hnext
      obtain ⟨hnone, _⟩ := h3 hnext
      rw [hv] at hnone
      cases hnone
  · have hmv : ¬ m.conflict_version = v := by rw [hm]; exact fun he => hvv he.symm
    refine ⟨?_, ?_, ?_⟩
    · rw [hlen, if_neg hmv]
      simpa using h1
    · intro hsome
      rw [set_room_negotiations, if_neg hvv] at hsome
      rw [hlen, if_neg hmv]
      simp [h2 hsome]
    · intro hnext
      obtain ⟨hnone, hcnt⟩ := h3 hnext
      refine ⟨by rw [set_room_negotiations, if_neg hvv]; exact hnone, ?_⟩
      rw [hlen, if_neg hmv]
      simp [hcnt]

/-- Helper: every event handled by the negotiation record preserves the
record invariant. -/
theorem neg_step_preserves_inv {N : Type} (ops : NegOps N)
    (s : ConflictRecordState N) (out : List ConclusionMsg) (e : NegEvent N)
    (h : RecordInv s out) :
    RecordInv (neg_step ops s e).1 (out ++ (neg_step ops s e).2) := by
  cases e with
  | insert room =>
    simpa [neg_step] using record_inv_insert s out room h
  | proposal m =>
    simp only [neg_step]
    unfold receive_proposal
    split
    · simpa using h
    · next room heq =>
      split
      · simpa using h
      · simpa using record_inv_set_live s out _ room _ heq h
      · dsimp only
        split
        · exact record_inv_retire_publish _ out m.conflict_version _ _
            (by rw [set_room_negotiations, if_pos rfl]) rfl
            (record_inv_set_live s out _ room _ heq h)
        · split
          · exact record_inv_retire_publish _ out m.conflict_version _ _
              (by rw [set_room_negotiations, if_pos rfl]) rfl
              (record_inv_set_live s out _ room _ heq h)
          · simpa using record_inv_set_live s out _ room _ heq h
  | rejection m =>
    simp only [neg_step]
    unfold receive_rejection
    split
    · simpa using h
    · next room heq =>
      split
      · simpa using h
      · simpa using record_inv_set_live s out _ room _ heq h
      · simpa using record_inv_set_live s out _ room _ heq h
  | forfeit m =>
    simp only [neg_step]
    unfold receive_forfeit
    split
    · simpa using h
    · next room heq =>
      split
      · simpa using h
      · simpa using record_inv_set_live s out _ room _ heq h
      · dsimp only
        split
        · exact record_inv_retire_publish _ out m.conflict_version _ _
            (by rw [set_room_negotiations, if_pos rfl]) rfl
            (record_inv_set_live s out _ room _ heq h)
        · simpa using record_inv_set_live s out _ room _ heq h
  | refusal m =>
    simp only [neg_step]
    unfold receive_refusal
    split
    · simpa using h
    · next room heq =>
      exact record_inv_retire_publish s out m.conflict_version room _ heq rfl h

/-- Helper: processing a whole event sequence preserves the record
invariant. -/
theorem neg_run_preserves_inv {N : Type} (ops : NegOps N) :
    ∀ (events : List (NegEvent N)) (s : ConflictRecordState N)
      (out : List ConclusionMsg), RecordInv s out →
      RecordInv (neg_run ops s events).1 (out ++ (neg_run ops s events).2) := by
  intro events
  induction events with
  | nil =>
    intro s out h
    simpa [neg_run] using h
  | cons e es ih =>
    intro s out h
    have h2 := ih (neg_step ops s e).1 (out ++ (neg_step ops s e).2)
      (neg_step_preserves_inv ops s out e h)
    simpa [neg_run, List.append_assoc] using h2

/-- C2: across any sequence of negotiation events handled from a fresh
record — creations by the conflict detector and the receive_proposal,
receive_rejection, receive_forfeit and receive_refusal handlers — at most
one ConflictConclusion is published for each negotiation version, and in
particular at most one with resolved set. -/
theorem conflict_conclusion_at_most_once {N : Type} (ops : NegOps N)
    (events : List (NegEvent N)) (v : Nat) :
    (conclusions_for v (neg_run ops (initial_record N) events).2).length ≤ 1 ∧
    (resolved_conclusions_for v
      (neg_run ops (initial_record N) events).2).length ≤ 1 := by
  have h0 : RecordInv (initial_record N) [] := by
    intro u
    refine ⟨by simp [conclusions_for], ?_, ?_⟩
    · intro hs
      simp [initial_record] at hs
    · intro _
      exact ⟨rfl, by simp [conclusions_for]⟩
  have h := neg_run_preserves_inv ops events (initial_record N) [] h0
  have h1 := (h v).1
  rw [List.nil_append] at h1
  refine ⟨h1, le_trans ?_ h1⟩
  exact List.length_filter_le _ _

/-- C8: a proposal, rejection or forfeit whose table lookup reports a
deprecated duplicate is discarded — the record state is unchanged, nothing
is cached, and nothing is published. -/
theorem deprecated_message_discarded {N : Type} (ops : NegOps N)
    (s : ConflictRecordState N) (pm : ProposalMsg) (rm : RejectionMsg)
    (fm : ForfeitMsg) :
    (∀ room, s.negotiations pm.conflict_version = some room →
      ops.find_proposal room.neg pm.for_participant pm.to_accommodate =
        .deprecated →
      receive_proposal ops s pm = (s, [])) ∧
    (∀ room, s.negotiations rm.conflict_version = some room →
      ops.find_table room.neg rm.table = .deprecated →
      receive_rejection ops s rm = (s, [])) ∧
    (∀ room, s.negotiations fm.conflict_version = some room →
      ops.find_table room.neg fm.table = .deprecated →
      receive_forfeit ops s fm = (s, [])) := by
  refine ⟨?_, ?_, ?_⟩ <;>
    · intro room h1 h2
      simp [receive_proposal, receive_rejection, receive_forfeit, h1, h2]

/-- C8 witness: against operations that report every lookup as deprecated,
a concrete record discards concrete proposal, rejection and forfeit
messages with no state change and no publication. -/
theorem deprecated_message_discarded_witness :
    receive_proposal deprecating_neg_ops unit_record
      { conflict_version := 0, for_participant := 1, to_accommodate := []
        itinerary := 0, proposal_version := 0 } = (unit_record, []) ∧
    receive_rejection deprecating_neg_ops unit_record
      { conflict_version := 0, table := [], rejected_by := 1
        alternatives := 0 } = (unit_record, []) ∧
    receive_forfeit deprecating_neg_ops unit_record
      { conflict_version := 0, table := [] } = (unit_record, []) := by
  have h := deprecated_message_discarded deprecating_neg_ops unit_record
    { conflict_version := 0, for_participant := 1, to_accommodate := []
      itinerary := 0, proposal_version := 0 }
    { conflict_version := 0, table := [], rejected_by := 1, alternatives := 0 }
    { conflict_version := 0, table := [] }
  exact ⟨h.1 unit_room rfl rfl, h.2.1 unit_room rfl rfl,
    h.2.2 unit_room rfl rfl⟩
